import Mathlib

/-
Formal model of the free-server welcome-sequence bot (src/main.py, src/config.py).

The bot keeps two persisted maps: an active queue (user id -> current day +
next send time) and a completion registry (user id -> started_at, completed,
cancel_reason).  A periodic scheduler tick delivers the due day to each queued
user and advances or terminates the entry; role-change handlers and admin
commands start, cancel or relocate sequences.

Modelling conventions used throughout this file:
- Python dicts become association lists (List (String x value)) with the
  operations dget / dset / dpop below; Python dicts never hold duplicate
  keys, so dpop removing every binding of a key is extensionally the same
  as dict.pop.
- datetime values become Int seconds since the Unix epoch (the bot never
  relies on sub-second precision for its logic); datetime.isoformat on an
  aware UTC value becomes the isoformat function below, and
  datetime.fromisoformat becomes the fromisoformat parser below, which
  accepts the subset of ISO-8601 strings that isoformat emits (a naive
  parse result is recorded with aware = false: comparing it against the
  aware clock raises TypeError in Python, which is_due's except turns
  into True, and the model reproduces exactly that observable behaviour).
- Fallible Python calls become Option; a raised exception is none.
- str.replace / str.strip / str.lower become pyReplace / pyStrip / pyLower.
-/

/-- Lookup in an association list, mirroring Python dict indexing or .get. -/
def dget {α : Type} (k : String) : List (String × α) → Option α
  | [] => none
  | p :: rest => if p.1 = k then some p.2 else dget k rest

/-- Update/insert in an association list, mirroring Python dict assignment:
an existing key keeps its position, a new key is appended at the end. -/
def dset {α : Type} (k : String) (v : α) : List (String × α) → List (String × α)
  | [] => [(k, v)]
  | p :: rest => if p.1 = k then (k, v) :: rest else p :: dset k v rest

/-- Removal from an association list, mirroring dict.pop(k, None). -/
def dpop {α : Type} (k : String) (l : List (String × α)) : List (String × α) :=
  l.filter (fun p => p.1 != k)

/-- Value of an ASCII digit character. -/
def digitVal (c : Char) : Nat := c.toNat - 48

/-- Read exactly n digit characters, accumulating their value. -/
def takeDigitsAux : Nat → Nat → List Char → Option (Nat × List Char)
  | 0, acc, rest => some (acc, rest)
  | n + 1, acc, c :: rest =>
      if c.isDigit then takeDigitsAux n (acc * 10 + digitVal c) rest else none
  | _ + 1, _, [] => none

/-- Read exactly n digit characters from the front of a character list. -/
def takeDigits (n : Nat) (l : List Char) : Option (Nat × List Char) :=
  takeDigitsAux n 0 l

/-- Consume one expected character. -/
def expectChar (c : Char) : List Char → Option (List Char)
  | c' :: rest => if c' = c then some rest else none
  | [] => none

/-- Gregorian leap-year test. -/
def isLeap (y : Int) : Bool := y % 4 = 0 && (y % 100 != 0 || y % 400 = 0)

/-- Number of days in a month of a given year. -/
def daysInMonth (y : Int) (m : Nat) : Nat :=
  if m = 2 then (if isLeap y then 29 else 28)
  else if [4, 6, 9, 11].contains m then 30 else 31

/-- Days since 1970-01-01 of a civil date (standard era-based algorithm,
the one datetime uses internally via its ordinal representation). -/
def daysFromCivil (y m d : Int) : Int :=
  let y := y - (if m ≤ 2 then 1 else 0)
  let era := (if 0 ≤ y then y else y - 399) / 400
  let yoe := y - era * 400
  let doy := (153 * (m + (if 2 < m then -3 else 9)) + 2) / 5 + d - 1
  let doe := yoe * 365 + yoe / 4 - yoe / 100 + doy
  era * 146097 + doe - 719468

/-- Civil date (year, month, day) of a count of days since 1970-01-01. -/
def civilFromDays (z : Int) : Int × Int × Int :=
  let z := z + 719468
  let era := (if 0 ≤ z then z else z - 146096) / 146097
  let doe := z - era * 146097
  let yoe := (doe - doe / 1460 + doe / 36524 - doe / 146096) / 365
  let y := yoe + era * 400
  let doy := doe - (365 * yoe + yoe / 4 - yoe / 100)
  let mp := (5 * doy + 2) / 153
  let d := doy - (153 * mp + 2) / 5 + 1
  let m := mp + (if mp < 10 then 3 else -9)
  (y + (if m ≤ 2 then 1 else 0), m, d)

/-- Two-digit zero-padded decimal rendering. -/
def pad2 (n : Int) : String := (if n < 10 then "0" else "") ++ toString n

/-- Four-digit zero-padded decimal rendering (for years). -/
def pad4 (n : Int) : String :=
  (if n < 10 then "000" else if n < 100 then "00" else if n < 1000 then "0" else "")
    ++ toString n

/-- Model of datetime.now(timezone.utc).isoformat() evaluated on an epoch
second count: the string YYYY-MM-DDTHH:MM:SS+00:00. -/
def isoformat (t : Int) : String :=
  let days := t.ediv 86400
  let sod := t.emod 86400
  let ymd := civilFromDays days
  pad4 ymd.1 ++ "-" ++ pad2 ymd.2.1 ++ "-" ++ pad2 ymd.2.2 ++ "T" ++
    pad2 (sod.ediv 3600) ++ ":" ++ pad2 ((sod.emod 3600).ediv 60) ++ ":" ++
    pad2 (sod.emod 60) ++ "+00:00"

/-- Fuel-driven worker for pyReplace; fuel is the length of the input, which
bounds the number of steps since each step consumes at least one character. -/
def replaceCharsFuel (pat rep : List Char) : Nat → List Char → List Char
  | 0, l => l
  | _ + 1, [] => []
  | fuel + 1, c :: rest =>
      if pat ≠ [] ∧ pat.isPrefixOf (c :: rest) then
        rep ++ replaceCharsFuel pat rep fuel ((c :: rest).drop pat.length)
      else
        c :: replaceCharsFuel pat rep fuel rest

/-- Model of Python str.replace: replace every non-overlapping occurrence of
pat in s by rep, scanning left to right. -/
def pyReplace (s pat rep : String) : String :=
  ⟨replaceCharsFuel pat.data rep.data s.data.length s.data⟩

/-- Model of Python str.lower for the ASCII text the bot manipulates. -/
def pyLower (s : String) : String := ⟨s.data.map Char.toLower⟩

/-- Whitespace recognised by Python str.strip. -/
def isStripChar (c : Char) : Bool :=
  c = ' ' || c = '\t' || c = '\n' || c = '\r' || c.toNat = 11 || c.toNat = 12

/-- Model of Python str.strip (no arguments): drop leading and trailing
whitespace. -/
def pyStrip (s : String) : String :=
  ⟨((s.data.dropWhile isStripChar).reverse.dropWhile isStripChar).reverse⟩

/-- Result of datetime.fromisoformat: a point in time (epoch seconds, the
offset already subtracted for aware values) plus whether the value carries
timezone information.  Comparing a naive value with the aware clock raises
in Python, which the callers of this model treat accordingly. -/
structure PyDateTime where
  epochSeconds : Int
  aware : Bool
deriving DecidableEq

/-- Epoch second count of a civil date plus time of day. -/
def dateSeconds (y mo d hh mi ss : Nat) : Int :=
  daysFromCivil (Int.ofNat y) (Int.ofNat mo) (Int.ofNat d) * 86400 +
    Int.ofNat (hh * 3600 + mi * 60 + ss)

/-- Consume an optional fractional-seconds suffix: either nothing, or a dot
followed by exactly three or six digits (the forms isoformat emits); the
digits are validated and discarded by this seconds-granularity model. -/
def parseFrac (l : List Char) : Option (List Char) :=
  match l with
  | '.' :: rest =>
      let digits := rest.takeWhile Char.isDigit
      if digits.length = 3 ∨ digits.length = 6 then some (rest.drop digits.length)
      else none
  | rest => some rest

/-- Parse a complete +HH:MM or -HH:MM UTC-offset suffix, in seconds. -/
def parseOffset (l : List Char) : Option Int :=
  match l with
  | sign :: rest =>
      if sign = '+' ∨ sign = '-' then
        match takeDigits 2 rest with
        | some (hh, ':' :: rest2) =>
            match takeDigits 2 rest2 with
            | some (mm, []) =>
                if hh < 24 ∧ mm < 60 then
                  some ((if sign = '-' then -1 else 1) * Int.ofNat (hh * 3600 + mm * 60))
                else none
            | _ => none
        | _ => none
      else none
  | [] => none

/-- Model of datetime.fromisoformat restricted to the shapes isoformat
emits: YYYY-MM-DD, optionally a separator character and HH:MM:SS, optionally
fractional seconds, optionally a +HH:MM / -HH:MM offset.  Malformed input or
out-of-range fields give none (Python: ValueError). -/
def fromisoformat (s : String) : Option PyDateTime := do
  let cs := s.data
  let (y, r1) ← takeDigits 4 cs
  let r2 ← expectChar '-' r1
  let (mo, r3) ← takeDigits 2 r2
  let r4 ← expectChar '-' r3
  let (d, r5) ← takeDigits 2 r4
  if ¬(1 ≤ y ∧ 1 ≤ mo ∧ mo ≤ 12 ∧ 1 ≤ d ∧ d ≤ daysInMonth (Int.ofNat y) mo) then
    none
  else
    match r5 with
    | [] => some ⟨dateSeconds y mo d 0 0 0, false⟩
    | _sep :: r6 => do
      let (hh, r7) ← takeDigits 2 r6
      let r8 ← expectChar ':' r7
      let (mi, r9) ← takeDigits 2 r8
      let r10 ← expectChar ':' r9
      let (ss, r11) ← takeDigits 2 r10
      if ¬(hh ≤ 23 ∧ mi ≤ 59 ∧ ss ≤ 59) then none
      else do
        let r12 ← parseFrac r11
        match r12 with
        | [] => some ⟨dateSeconds y mo d hh mi ss, false⟩
        | _ => do
          let off ← parseOffset r12
          some ⟨dateSeconds y mo d hh mi ss - off, true⟩

/-- Environment-driven configuration values of config.py (the role ids and
timing knobs read from env vars; defaults as in config.py). -/
structure Config where
  ROLE_TRIGGER : Nat
  ROLE_CANCEL_A : Nat
  ROLE_CANCEL_B : Nat
  DAY_GAP_HOURS : Int
deriving DecidableEq

/-- The config.py default values. -/
def config_default : Config :=
  { ROLE_TRIGGER := 1222877651438407731
  , ROLE_CANCEL_A := 876569612085518376
  , ROLE_CANCEL_B := 1158658514458263592
  , DAY_GAP_HOURS := 24 }

/-- config.DAY_KEYS: the fixed ordered list of sequence steps. -/
def DAY_KEYS : List String :=
  ["day_1", "day_2", "day_3", "day_4", "day_5", "day_6", "day_7a"]

/-- A guild member as the bot sees it: its id (stringified, as used for the
state maps) and the ids of its roles. -/
structure Member where
  id : String
  roles : List Nat
deriving DecidableEq

/-- One value of the queue_state map: {"current_day": ..., "next_send": ...}. -/
structure QueueEntry where
  current_day : String
  next_send : String
deriving DecidableEq

/-- One value of the registry map: started_at plus the completion marker and
the optional cancel_reason key. -/
structure RegRecord where
  started_at : String
  completed : Bool
  cancel_reason : Option String
deriving DecidableEq

/-- The two in-memory maps of main.py (queue_state and registry). -/
structure BotState where
  queue_state : List (String × QueueEntry)
  registry : List (String × RegRecord)
deriving DecidableEq

/-- main.py: the isoformat().replace of the +00:00 suffix by Z applied at
every site that stores a next_send value. -/
def iso_z (t : Int) : String := pyReplace (isoformat t) ("+00:00") ("Z")

/-- main.py has_sequence_before: str(user_id) in registry. -/
def has_sequence_before (st : BotState) (uid : String) : Bool :=
  (dget uid st.registry).isSome

/-- main.py mark_started: create the registry record (completed False) only
if the user never had one. -/
def mark_started (now : Int) (st : BotState) (uid : String) : BotState :=
  if (dget uid st.registry).isSome then st
  else
    let r : RegRecord :=
      { started_at := isoformat now, completed := false, cancel_reason := none }
    { st with registry := dset uid r st.registry }

/-- main.py mark_cancelled: ensure a registry record exists, set completed
True and the cancel_reason, and pop the queue entry. -/
def mark_cancelled (now : Int) (st : BotState) (uid : String) (reason : String) :
    BotState :=
  let base : RegRecord :=
    match dget uid st.registry with
    | some r => r
    | none => { started_at := isoformat now, completed := false, cancel_reason := none }
  let upd : RegRecord := { base with completed := true, cancel_reason := some reason }
  { queue_state := dpop uid st.queue_state
  , registry := dset uid upd st.registry }

/-- main.py mark_finished: same body as mark_cancelled with the fixed reason
string finished. -/
def mark_finished (now : Int) (st : BotState) (uid : String) : BotState :=
  let base : RegRecord :=
    match dget uid st.registry with
    | some r => r
    | none => { started_at := isoformat now, completed := false, cancel_reason := none }
  let upd : RegRecord :=
    { base with completed := true, cancel_reason := some ("finished") }
  { queue_state := dpop uid st.queue_state
  , registry := dset uid upd st.registry }

/-- main.py enqueue_first_day: queue the user at day_1 firing now, then
mark_started. -/
def enqueue_first_day (now : Int) (st : BotState) (uid : String) : BotState :=
  let e : QueueEntry := { current_day := "day_1", next_send := iso_z now }
  let st1 : BotState := { st with queue_state := dset uid e st.queue_state }
  mark_started now st1 uid

/-- main.py schedule_next: an unknown day cancels with internal_error_bad_day;
the last configured day finishes the sequence; otherwise the queue entry moves
to the next day, firing DAY_GAP_HOURS hours from now. -/
def schedule_next (cfg : Config) (now : Int) (st : BotState) (uid : String)
    (current_day : String) : BotState :=
  if ¬DAY_KEYS.contains current_day then
    mark_cancelled now st uid ("internal_error_bad_day")
  else
    let idx := DAY_KEYS.indexOf current_day
    if DAY_KEYS.length - 1 ≤ idx then mark_finished now st uid
    else
      let next_day := DAY_KEYS.getD (idx + 1) ("")
      let next_time := now + 3600 * cfg.DAY_GAP_HOURS
      let e : QueueEntry := { current_day := next_day, next_send := iso_z next_time }
      { st with queue_state := dset uid e st.queue_state }

/-- main.py is_due: parse the stored timestamp after turning Z back into
+00:00 and compare with now; every exception (malformed string, or the
TypeError from comparing a naive value with the aware clock) yields True. -/
def is_due (now : Int) (next_send_iso : String) : Bool :=
  match fromisoformat (pyReplace next_send_iso ("Z") ("+00:00")) with
  | none => true
  | some dt => if dt.aware then decide (dt.epochSeconds ≤ now) else true

/-- main.py has_cancel_role: either designated cancel role is present. -/
def has_cancel_role (cfg : Config) (m : Member) : Bool :=
  m.roles.contains cfg.ROLE_CANCEL_A || m.roles.contains cfg.ROLE_CANCEL_B

/-- main.py has_trigger_role. -/
def has_trigger_role (cfg : Config) (m : Member) : Bool :=
  m.roles.contains cfg.ROLE_TRIGGER

/-- Outcome of attempting to send one message block: success, a Forbidden
(permission) error, or any other exception. -/
inductive SendOutcome
  | ok
  | forbidden
  | other
deriving DecidableEq

/-- main.py send_embeds_with_view: all blocks except the last are sent inside
a try that logs and swallows any exception; the last block is sent inside a
try that logs and re-raises.  The result is the list of outcomes of the
non-final sends (all of them caught, hence only logged) paired with what the
function itself does: return normally (ok) or propagate the final block's
exception.  An empty block list returns immediately. -/
def send_embeds_with_view (outcome : Nat → SendOutcome) (embeds : List Unit) :
    List SendOutcome × SendOutcome :=
  match embeds with
  | [] => ([], SendOutcome.ok)
  | _ :: es => ((List.range es.length).map outcome, outcome es.length)

/-- The collaborators send_day and the scheduler consult, one field per
Python call site: guild.get_member (the roles of a present member),
load_message_module (module found or not), config.UTM_LINKS.get,
normalize_message_output (none models a raised build error, some gives the
display blocks), and the outcome of sending each block (by user, day and
block index). -/
structure Env where
  member_roles : String → Option (List Nat)
  moduleExists : String → Bool
  utm : String → Option String
  buildResult : String → Option (List Unit)
  blockOutcome : String → String → Nat → SendOutcome

/-- main.py send_day as a transformer of the two state maps (the rate-limit
sleep and last_send_at bookkeeping are timing-only and are modelled separately
by send_sleep / send_time): re-check the cancel roles, skip on missing module,
missing or empty UTM link, or build error, then deliver; a Forbidden escaping
send_embeds_with_view cancels with dm_forbidden, any other exception is only
logged. -/
def send_day (cfg : Config) (env : Env) (now : Int) (st : BotState) (m : Member)
    (day_key : String) : BotState :=
  if has_cancel_role cfg m then
    mark_cancelled now st m.id ("cancel_role_present_pre_send")
  else if env.moduleExists day_key = false then st
  else
    match env.utm day_key with
    | none => st
    | some join_url =>
      if join_url = "" then st
      else
        match env.buildResult day_key with
        | none => st
        | some embeds =>
          match (send_embeds_with_view (env.blockOutcome m.id day_key) embeds).2 with
          | SendOutcome.ok => st
          | SendOutcome.forbidden => mark_cancelled now st m.id ("dm_forbidden")
          | SendOutcome.other => st

/-- The per-entry body of main.py scheduler_loop for one (uid, payload) pair
of the tick's snapshot: skip when no current_day or not due; cancel with
left_guild when the member is gone; cancel with cancel_role_present before
any delivery when a cancel role is held; otherwise run send_day and, if the
user is still queued afterwards, schedule_next.  The Bool records whether
send_day was invoked (a delivery attempt was made) for this entry. -/
def process_entry (cfg : Config) (env : Env) (now : Int) (st : BotState)
    (uid : String) (payload : QueueEntry) : BotState × Bool :=
  if payload.current_day = "" ∨ is_due now payload.next_send = false then (st, false)
  else
    match env.member_roles uid with
    | none => (mark_cancelled now st uid ("left_guild"), false)
    | some roles =>
      if has_cancel_role cfg ⟨uid, roles⟩ then
        (mark_cancelled now st uid ("cancel_role_present"), false)
      else
        let st1 := send_day cfg env now st ⟨uid, roles⟩ payload.current_day
        if (dget uid st1.queue_state).isSome then
          (schedule_next cfg now st1 uid payload.current_day, true)
        else (st1, true)

/-- The queue/registry-mutating behaviour of main.py on_member_update for a
role change of user uid from before_roles to after_roles: a cancel role
appearing while the user is queued cancels with cancel_role_added; the
trigger role transitioning absent-to-present enrolls unless the user ever
had a registry record (then the start is skipped).  The remaining branches
(fallback re-check scheduling, former-member marker handling) only touch
roles or spawn delayed tasks and never mutate the two maps, so they are the
identity here. -/
def on_member_update (cfg : Config) (now : Int) (st : BotState)
    (before_roles after_roles : List Nat) (uid : String) : BotState :=
  if (after_roles.contains cfg.ROLE_CANCEL_A || after_roles.contains cfg.ROLE_CANCEL_B)
      && (dget uid st.queue_state).isSome then
    mark_cancelled now st uid ("cancel_role_added")
  else if !(before_roles.contains cfg.ROLE_TRIGGER)
      && after_roles.contains cfg.ROLE_TRIGGER then
    if has_sequence_before st uid then st
    else enqueue_first_day now st uid
  else st

/-- The enrollment step of main.py check_and_assign_role after the fallback
role was assigned (lines 480-482): enqueue day_1 only if the user never had a
registry record. -/
def check_and_assign_role_enroll (now : Int) (st : BotState) (uid : String) :
    BotState :=
  if has_sequence_before st uid then st else enqueue_first_day now st uid

/-- main.py start command (start_sequence): reject without the trigger role,
reject if a registry record ever existed, otherwise enqueue day_1.  The
String is the synchronous reply. -/
def start_sequence (cfg : Config) (now : Int) (st : BotState) (m : Member) :
    BotState × String :=
  if has_trigger_role cfg m = false then
    (st, "User does not have the trigger role; sequence only starts after that role is added.")
  else if has_sequence_before st m.id then
    (st, "User already had sequence before; not starting again.")
  else
    (enqueue_first_day now st m.id, "Queued day_1 now.")

/-- main.py cancel command (cancel_sequence): reject when the user has no
active queue entry, otherwise mark_cancelled with admin_cancel. -/
def cancel_sequence (now : Int) (st : BotState) (m : Member) : BotState × String :=
  if dget m.id st.queue_state = none then (st, "User not in active queue.")
  else (mark_cancelled now st m.id ("admin_cancel"), "Cancelled sequence.")

/-- Digit-string to number, modelling int() on a string of ASCII digits. -/
def digitsToNat (l : List Char) : Nat :=
  l.foldl (fun a c => a * 10 + digitVal c) 0

/-- String prefix test over the character lists. -/
def strStartsWith (s p : String) : Bool := p.data.isPrefixOf s.data

/-- The day-reference parser of main.py relocate (lines 668-685): after
strip().lower(), a digit string selects DAY_KEYS[int(d)-1] when in range; 7a
or 7b selects the corresponding day_ key when configured; 7 selects
DAY_KEYS[6] when at least seven days exist (dead in practice, digits match
first); an explicit day_ key is accepted when configured; anything else is
invalid (none). -/
def relocate_day_key (day : String) : Option String :=
  let d := pyLower (pyStrip day)
  if d ≠ "" ∧ d.data.all Char.isDigit then
    let idx : Int := Int.ofNat (digitsToNat d.data) - 1
    if 0 ≤ idx ∧ idx < Int.ofNat DAY_KEYS.length then
      some (DAY_KEYS.getD idx.toNat (""))
    else none
  else if d = "7a" ∨ d = "7b" then
    if DAY_KEYS.contains ("day_" ++ d) then some ("day_" ++ d) else none
  else if d = "7" then
    if 7 ≤ DAY_KEYS.length then some (DAY_KEYS.getD 6 ("")) else none
  else if strStartsWith d ("day_") && DAY_KEYS.contains d then some d
  else none

/-- main.py relocate command (relocate_sequence): an unresolvable day
reference is rejected with a descriptive reply and no mutation; a valid one
overwrites the queue entry to fire five seconds from now, with no check of
the registry at all. -/
def relocate_sequence (now : Int) (st : BotState) (uid : String) (day : String) :
    BotState × String :=
  match relocate_day_key day with
  | none => (st, "Invalid day. Use 1-7, 7a, 7b, 7, or day_1..day_7b.")
  | some dk =>
    let e : QueueEntry := { current_day := dk, next_send := iso_z (now + 5) }
    ({ st with queue_state := dset uid e st.queue_state }, "Relocated; will send in ~5s.")

/-- The queue/registry exclusivity invariant: every user id present in the
active queue has no registry record showing completed True (its record is
absent or has completed False). -/
def queue_registry_exclusive (st : BotState) : Bool :=
  st.queue_state.all fun p =>
    match dget p.1 st.registry with
    | none => true
    | some r => !r.completed

/-- JSON values as far as the two persisted documents need them: strings,
booleans and objects with ordered fields (the shape json.dump writes and
json.loads returns for these maps). -/
inductive Json
  | str (s : String)
  | bool (b : Bool)
  | obj (fields : List (String × Json))

/-- JSON form of a queue entry, with the key order main.py writes. -/
def QueueEntry.toJson (e : QueueEntry) : Json :=
  Json.obj [("current_day", Json.str e.current_day), ("next_send", Json.str e.next_send)]

/-- Read a queue entry back from its JSON object. -/
def QueueEntry.fromJson (j : Json) : Option QueueEntry :=
  match j with
  | Json.obj fields =>
    match dget ("current_day") fields, dget ("next_send") fields with
    | some (Json.str cd), some (Json.str ns) => some ⟨cd, ns⟩
    | _, _ => none
  | _ => none

/-- JSON form of a registry record: started_at and completed always present,
cancel_reason only when set, matching the key order the mutators create. -/
def RegRecord.toJson (r : RegRecord) : Json :=
  Json.obj ([("started_at", Json.str r.started_at), ("completed", Json.bool r.completed)]
    ++ (match r.cancel_reason with
        | none => []
        | some rsn => [("cancel_reason", Json.str rsn)]))

/-- Read a registry record back from its JSON object. -/
def RegRecord.fromJson (j : Json) : Option RegRecord :=
  match j with
  | Json.obj fields =>
    match dget ("started_at") fields, dget ("completed") fields with
    | some (Json.str sa), some (Json.bool c) =>
      match dget ("cancel_reason") fields with
      | none => some ⟨sa, c, none⟩
      | some (Json.str rsn) => some ⟨sa, c, some rsn⟩
      | some _ => none
    | _, _ => none
  | _ => none

/-- The whole queue document as JSON (user-id keys in map order). -/
def queueToJson (q : List (String × QueueEntry)) : Json :=
  Json.obj (q.map fun p => (p.1, p.2.toJson))

/-- The whole registry document as JSON. -/
def registryToJson (r : List (String × RegRecord)) : Json :=
  Json.obj (r.map fun p => (p.1, p.2.toJson))

/-- Decode the fields of a queue document one by one. -/
def decodeQueueFields : List (String × Json) → Option (List (String × QueueEntry))
  | [] => some []
  | (k, j) :: rest =>
    match QueueEntry.fromJson j, decodeQueueFields rest with
    | some e, some es => some ((k, e) :: es)
    | _, _ => none

/-- Decode a queue document. -/
def decodeQueue (j : Json) : Option (List (String × QueueEntry)) :=
  match j with
  | Json.obj fields => decodeQueueFields fields
  | _ => none

/-- Decode the fields of a registry document one by one. -/
def decodeRegistryFields : List (String × Json) → Option (List (String × RegRecord))
  | [] => some []
  | (k, j) :: rest =>
    match RegRecord.fromJson j, decodeRegistryFields rest with
    | some e, some es => some ((k, e) :: es)
    | _, _ => none

/-- Decode a registry document. -/
def decodeRegistry (j : Json) : Option (List (String × RegRecord)) :=
  match j with
  | Json.obj fields => decodeRegistryFields fields
  | _ => none

/-- A file system as the bot observes it: a map from path to the JSON value
the file holds.  The json.dump / json.loads text layer is modelled at the
JSON-value level (the library guarantees that serializing and reparsing a
value of this shape is the identity), so a file's content is the value it
decodes to; a missing path is an absent file, which load_json treats like an
empty or corrupt one. -/
def FS : Type := List (String × Json)

/-- The first half of main.py save_json: json.dump into path + ".tmp".  The
destination path is untouched by this step. -/
def write_tmp (path : String) (data : Json) (fs : FS) : FS :=
  dset (path ++ ".tmp") data fs

/-- os.replace: atomically rename src over dst (dst gets the full content of
src; src disappears).  A missing src would raise; save_json never hits that. -/
def os_replace (src dst : String) (fs : FS) : FS :=
  match dget src fs with
  | none => fs
  | some content => dset dst content (dpop src fs)

/-- main.py save_json: write the temporary file, then rename it over the
destination. -/
def save_json (path : String) (data : Json) (fs : FS) : FS :=
  os_replace (path ++ ".tmp") path (write_tmp path data fs)

/-- main.py load_json: a missing (or, in the text-level original, empty or
corrupt) file is an empty document; otherwise the parsed content. -/
def load_json (path : String) (fs : FS) : Json :=
  match dget path fs with
  | none => Json.obj []
  | some j => j

/-- One delivery request for the rate-limit timing model of send_day: the
instant the spacing check runs (now) and the further delay, nonnegative,
between the actual send and the recording of last_send_at. -/
structure Delivery where
  arrive : ℚ
  finish : ℚ

/-- The sleep send_day performs before sending (lines 277-280): nothing if no
delivery happened yet, otherwise the remainder of the spacing interval since
last_send_at. -/
def send_sleep (spacing : ℚ) (last_send_at : Option ℚ) (now : ℚ) : ℚ :=
  match last_send_at with
  | none => 0
  | some l => if now - l < spacing then spacing - (now - l) else 0

/-- The instant the actual send happens: the arrival instant plus the sleep. -/
def send_time (spacing : ℚ) (last_send_at : Option ℚ) (now : ℚ) : ℚ :=
  now + send_sleep spacing last_send_at now

/-- The actual send instants of a sequence of deliveries processed one after
the other (the scheduler loop is a single cooperative task, so deliveries of
all users are serialized through the one global last_send_at): each delivery
sleeps per send_sleep, sends, and then records last_send_at finish later. -/
def run_sends (spacing : ℚ) : Option ℚ → List Delivery → List ℚ
  | _, [] => []
  | last, d :: rest =>
    let s := send_time spacing last d.arrive
    s :: run_sends spacing (some (s + d.finish)) rest

/-- Example member with no roles. -/
def ex_member_plain : Member := ⟨"1", []⟩

/-- Example member holding cancel role A (config.py default id). -/
def ex_member_cancel : Member := ⟨"1", [876569612085518376]⟩

/-- Example member holding the trigger role (config.py default id). -/
def ex_member_trigger : Member := ⟨"1", [1222877651438407731]⟩

/-- Example state: user 1 queued at day_1 due since the epoch, registry
started and not completed. -/
def ex_st_active : BotState :=
  ⟨[("1", ⟨"day_1", "1970-01-01T00:00:00Z"⟩)],
   [("1", ⟨"1970-01-01T00:00:00+00:00", false, none⟩)]⟩

/-- Example state: user 1 finished (registry completed, no queue entry). -/
def ex_st_done : BotState :=
  ⟨[], [("1", ⟨"1970-01-01T00:00:00+00:00", true, some ("finished")⟩)]⟩

/-- Example environment: user 1 present with no roles, module and link
present, one display block whose send fails with a non-permission error. -/
def ex_env_transient : Env :=
  { member_roles := fun _ => some []
  , moduleExists := fun _ => true
  , utm := fun _ => some ("https://example.com")
  , buildResult := fun _ => some [()]
  , blockOutcome := fun _ _ _ => SendOutcome.other }

/-- Example environment: the processed user holds cancel role A. -/
def ex_env_cancelrole : Env :=
  { ex_env_transient with member_roles := fun _ => some [876569612085518376] }

/-- Example environment: two display blocks; the non-final block's send
raises a generic exception, the final block succeeds. -/
def ex_env_two : Env :=
  { ex_env_transient with
      buildResult := fun _ => some [(), ()]
    , blockOutcome := fun _ _ i => if i = 0 then SendOutcome.other else SendOutcome.ok }

theorem dget_dset_self {α : Type} (k : String) (v : α) (m : List (String × α)) :
    dget k (dset k v m) = some v := by
  induction m with
  | nil => simp [dget, dset]
  | cons p rest ih =>
    by_cases h : p.1 = k
    · simp [dset, h, dget]
    · simp [dset, h, dget, ih]

theorem dget_dset_ne {α : Type} (k k' : String) (v : α) (m : List (String × α))
    (h : k' ≠ k) : dget k' (dset k v m) = dget k' m := by
  induction m with
  | nil => simp [dget, dset, Ne.symm h]
  | cons p rest ih =>
    by_cases hp : p.1 = k
    · have hp' : p.1 ≠ k' := by rw [hp]; exact Ne.symm h
      simp only [dset, if_pos hp, dget, if_neg (Ne.symm h), if_neg hp']
    · simp only [dset, if_neg hp, dget]
      by_cases hq : p.1 = k'
      · simp [hq]
      · simp [hq, ih]

theorem dget_dpop_self {α : Type} (k : String) (m : List (String × α)) :
    dget k (dpop k m) = none := by
  induction m with
  | nil => rfl
  | cons p rest ih =>
    by_cases hp : p.1 = k
    · simpa [dpop, List.filter_cons, hp] using ih
    · simpa [dpop, List.filter_cons, hp, dget] using ih

theorem dget_dpop_ne {α : Type} (k k' : String) (m : List (String × α))
    (h : k' ≠ k) : dget k' (dpop k m) = dget k' m := by
  induction m with
  | nil => rfl
  | cons p rest ih =>
    by_cases hp : p.1 = k
    · have hp' : p.1 ≠ k' := by rw [hp]; exact Ne.symm h
      simpa [dpop, List.filter_cons, hp, dget, hp', Ne.symm h] using ih
    · by_cases hq : p.1 = k'
      · simp [dpop, List.filter_cons, hp, dget, hq, h]
      · simpa [dpop, List.filter_cons, hp, dget, hq] using ih

theorem mem_dset {α : Type} (q : String × α) (k : String) (v : α)
    (m : List (String × α)) (h : q ∈ dset k v m) : q = (k, v) ∨ q ∈ m := by
  induction m with
  | nil =>
    simp [dset] at h
    exact Or.inl h
  | cons p rest ih =>
    by_cases hp : p.1 = k
    · simp only [dset, hp, if_pos rfl] at h
      rcases List.mem_cons.mp h with h1 | h1
      · exact Or.inl h1
      · exact Or.inr (List.mem_cons_of_mem _ h1)
    · simp only [dset, if_neg hp] at h
      rcases List.mem_cons.mp h with h1 | h1
      · exact Or.inr (h1 ▸ List.mem_cons_self _ _)
      · rcases ih h1 with h2 | h2
        · exact Or.inl h2
        · exact Or.inr (List.mem_cons_of_mem _ h2)

theorem mem_dpop {α : Type} (q : String × α) (k : String) (m : List (String × α))
    (h : q ∈ dpop k m) : q ∈ m ∧ q.1 ≠ k := by
  have := List.mem_filter.mp h
  exact ⟨this.1, by simpa using this.2⟩

theorem dget_mem {α : Type} (k : String) (v : α) (m : List (String × α))
    (h : dget k m = some v) : (k, v) ∈ m := by
  induction m with
  | nil => simp [dget] at h
  | cons p rest ih =>
    by_cases hp : p.1 = k
    · simp only [dget, if_pos hp] at h
      have : (k, v) = p := by
        cases h
        rw [← hp]
      exact this ▸ List.mem_cons_self _ _
    · simp only [dget, if_neg hp] at h
      exact List.mem_cons_of_mem _ (ih h)

theorem qre_iff (st : BotState) :
    queue_registry_exclusive st = true ↔
      ∀ p ∈ st.queue_state, ∀ r, dget p.1 st.registry = some r →
        r.completed = false := by
  unfold queue_registry_exclusive
  rw [List.all_eq_true]
  constructor
  · intro h p hp r hr
    have := h p hp
    rw [hr] at this
    simpa using this
  · intro h p hp
    cases hreg : dget p.1 st.registry with
    | none => simp [hreg]
    | some r => simp [hreg, h p hp r hreg]

theorem mark_cancelled_queue (now : Int) (st : BotState) (uid reason : String) :
    (mark_cancelled now st uid reason).queue_state = dpop uid st.queue_state := rfl

theorem mark_cancelled_registry (now : Int) (st : BotState) (uid reason : String) :
    ∃ r, (mark_cancelled now st uid reason).registry = dset uid r st.registry ∧
      r.completed = true ∧ r.cancel_reason = some reason := by
  exact ⟨_, rfl, rfl, rfl⟩

theorem mark_finished_eq (now : Int) (st : BotState) (uid : String) :
    mark_finished now st uid = mark_cancelled now st uid ("finished") := rfl

theorem qre_mark_cancelled (now : Int) (st : BotState) (uid reason : String)
    (h : queue_registry_exclusive st = true) :
    queue_registry_exclusive (mark_cancelled now st uid reason) = true := by
  rw [qre_iff] at h ⊢
  intro p hp r hr
  rw [mark_cancelled_queue] at hp
  obtain ⟨r0, hreg, -, -⟩ := mark_cancelled_registry now st uid reason
  rw [hreg] at hr
  have hp2 := mem_dpop p uid st.queue_state hp
  rw [dget_dset_ne _ _ _ _ hp2.2] at hr
  exact h p hp2.1 r hr

theorem hsb_false_none (st : BotState) (uid : String)
    (hb : has_sequence_before st uid = false) : dget uid st.registry = none := by
  unfold has_sequence_before at hb
  cases hx : dget uid st.registry with
  | none => rfl
  | some r => rw [hx] at hb; simp at hb

theorem enqueue_first_day_eq (now : Int) (st : BotState) (uid : String)
    (hb : dget uid st.registry = none) :
    enqueue_first_day now st uid =
      ⟨dset uid ⟨"day_1", iso_z now⟩ st.queue_state,
       dset uid ⟨isoformat now, false, none⟩ st.registry⟩ := by
  simp [enqueue_first_day, mark_started, hb]

theorem qre_enqueue_of_not_before (now : Int) (st : BotState) (uid : String)
    (h : queue_registry_exclusive st = true)
    (hb : has_sequence_before st uid = false) :
    queue_registry_exclusive (enqueue_first_day now st uid) = true := by
  rw [enqueue_first_day_eq now st uid (hsb_false_none st uid hb)]
  rw [qre_iff] at h ⊢
  intro p hp r hr
  by_cases hpu : p.1 = uid
  · rw [hpu, dget_dset_self] at hr
    cases hr
    rfl
  · rw [dget_dset_ne _ _ _ _ hpu] at hr
    rcases mem_dset p uid _ st.queue_state hp with h1 | h1
    · exact absurd (by rw [h1]) hpu
    · exact h p h1 r hr

theorem qre_schedule_next (cfg : Config) (now : Int) (st : BotState)
    (uid day : String) (h : queue_registry_exclusive st = true)
    (hq : (dget uid st.queue_state).isSome = true) :
    queue_registry_exclusive (schedule_next cfg now st uid day) = true := by
  unfold schedule_next
  split
  · exact qre_mark_cancelled _ _ _ _ h
  · dsimp only
    split
    · rw [mark_finished_eq]
      exact qre_mark_cancelled _ _ _ _ h
    · rw [qre_iff] at h ⊢
      intro p hp r hr
      rcases mem_dset p uid _ st.queue_state hp with h1 | h1
      · obtain ⟨v, hv⟩ := Option.isSome_iff_exists.mp hq
        have hp1 : p.1 = uid := by rw [h1]
        rw [hp1] at hr
        exact h (uid, v) (dget_mem _ _ _ hv) r hr
      · exact h p h1 r hr

theorem qre_send_day (cfg : Config) (env : Env) (now : Int) (st : BotState)
    (m : Member) (day : String) (h : queue_registry_exclusive st = true) :
    queue_registry_exclusive (send_day cfg env now st m day) = true := by
  unfold send_day
  split
  · exact qre_mark_cancelled _ _ _ _ h
  · split
    · exact h
    · split
      · exact h
      · split
        · exact h
        · split
          · exact h
          · split
            · exact h
            · exact qre_mark_cancelled _ _ _ _ h
            · exact h

theorem qre_process_entry (cfg : Config) (env : Env) (now : Int) (st : BotState)
    (uid : String) (payload : QueueEntry) (h : queue_registry_exclusive st = true) :
    queue_registry_exclusive (process_entry cfg env now st uid payload).1 = true := by
  unfold process_entry
  split
  · exact h
  · split
    · exact qre_mark_cancelled _ _ _ _ h
    · split
      · exact qre_mark_cancelled _ _ _ _ h
      · dsimp only
        split
        · exact qre_schedule_next _ _ _ _ _ (qre_send_day _ _ _ _ _ _ h) (by assumption)
        · exact qre_send_day _ _ _ _ _ _ h

theorem qre_mark_started (now : Int) (st : BotState) (uid : String)
    (h : queue_registry_exclusive st = true) :
    queue_registry_exclusive (mark_started now st uid) = true := by
  unfold mark_started
  split
  · exact h
  · rw [qre_iff] at h ⊢
    intro p hp r hr
    by_cases hpu : p.1 = uid
    · rw [hpu, dget_dset_self] at hr
      cases hr
      rfl
    · rw [dget_dset_ne _ _ _ _ hpu] at hr
      exact h p hp r hr

theorem qre_on_member_update (cfg : Config) (now : Int) (st : BotState)
    (before_roles after_roles : List Nat) (uid : String)
    (h : queue_registry_exclusive st = true) :
    queue_registry_exclusive
      (on_member_update cfg now st before_roles after_roles uid) = true := by
  unfold on_member_update
  split
  · exact qre_mark_cancelled _ _ _ _ h
  · split
    · split
      · exact h
      · next hb =>
          exact qre_enqueue_of_not_before _ _ _ h (Bool.not_eq_true _ ▸ hb)
    · exact h

theorem qre_start_sequence (cfg : Config) (now : Int) (st : BotState) (m : Member)
    (h : queue_registry_exclusive st = true) :
    queue_registry_exclusive (start_sequence cfg now st m).1 = true := by
  unfold start_sequence
  split
  · exact h
  · split
    · exact h
    · next hb =>
        exact qre_enqueue_of_not_before _ _ _ h (Bool.not_eq_true _ ▸ hb)

theorem qre_cancel_sequence (now : Int) (st : BotState) (m : Member)
    (h : queue_registry_exclusive st = true) :
    queue_registry_exclusive (cancel_sequence now st m).1 = true := by
  unfold cancel_sequence
  split
  · exact h
  · exact qre_mark_cancelled _ _ _ _ h

theorem qre_relocate_of_record_clear (now : Int) (st : BotState) (uid day : String)
    (h : queue_registry_exclusive st = true)
    (hrec : ∀ r, dget uid st.registry = some r → r.completed = false) :
    queue_registry_exclusive (relocate_sequence now st uid day).1 = true := by
  unfold relocate_sequence
  split
  · exact h
  · rw [qre_iff] at h ⊢
    intro p hp r hr
    rcases mem_dset p uid _ st.queue_state hp with h1 | h1
    · have hp1 : p.1 = uid := by rw [h1]
      rw [hp1] at hr
      exact hrec r hr
    · exact h p h1 r hr

theorem schedule_next_eq_of_lt (cfg : Config) (now : Int) (st : BotState)
    (uid day : String) (hc : DAY_KEYS.contains day = true)
    (hlt : DAY_KEYS.indexOf day < DAY_KEYS.length - 1) :
    schedule_next cfg now st uid day =
      { st with
          queue_state := dset uid ⟨DAY_KEYS.getD (DAY_KEYS.indexOf day + 1) (""),
                           iso_z (now + 3600 * cfg.DAY_GAP_HOURS)⟩ st.queue_state } := by
  simp only [schedule_next]
  rw [if_neg (not_not_intro hc), if_neg (by omega)]

theorem schedule_next_eq_of_last (cfg : Config) (now : Int) (st : BotState)
    (uid day : String) (hc : DAY_KEYS.contains day = true)
    (hge : DAY_KEYS.length - 1 ≤ DAY_KEYS.indexOf day) :
    schedule_next cfg now st uid day = mark_cancelled now st uid ("finished") := by
  simp only [schedule_next]
  rw [if_neg (not_not_intro hc), if_pos hge, mark_finished_eq]

/-- Claim C1: when the scheduler advances a queue entry after a tick's
delivery step, a current day that is a configured step but not the last one
moves the entry to the next step in list order with next_send equal to now
plus the configured DAY_GAP_HOURS gap (registry untouched); the last
configured step instead removes the queue entry and gives the user's registry
record completed true with cancel_reason finished. -/
theorem schedule_next_advances_or_finishes (cfg : Config) (now : Int)
    (st : BotState) (uid day : String) (h : day ∈ DAY_KEYS) :
    (DAY_KEYS.indexOf day < DAY_KEYS.length - 1 →
      dget uid (schedule_next cfg now st uid day).queue_state =
        some ⟨DAY_KEYS.getD (DAY_KEYS.indexOf day + 1) (""),
              iso_z (now + 3600 * cfg.DAY_GAP_HOURS)⟩ ∧
      (schedule_next cfg now st uid day).registry = st.registry) ∧
    (DAY_KEYS.length - 1 ≤ DAY_KEYS.indexOf day →
      dget uid (schedule_next cfg now st uid day).queue_state = none ∧
      ∃ r, dget uid (schedule_next cfg now st uid day).registry = some r ∧
        r.completed = true ∧ r.cancel_reason = some ("finished")) := by
  have hc : DAY_KEYS.contains day = true := List.elem_iff.mpr h
  constructor
  · intro hlt
    rw [schedule_next_eq_of_lt cfg now st uid day hc hlt]
    exact ⟨dget_dset_self _ _ _, rfl⟩
  · intro hge
    rw [schedule_next_eq_of_last cfg now st uid day hc hge]
    refine ⟨by rw [mark_cancelled_queue]; exact dget_dpop_self _ _, ?_⟩
    obtain ⟨r0, hreg, hcomp, hrsn⟩ := mark_cancelled_registry now st uid ("finished")
    exact ⟨r0, by rw [hreg]; exact dget_dset_self _ _ _, hcomp, hrsn⟩

theorem schedule_next_advances_or_finishes_witness :
    dget ("1")
      (schedule_next config_default 0
        ⟨[("1", ⟨"day_1", "1970-01-01T00:00:00Z"⟩)], []⟩ "1" "day_1").queue_state =
      some ⟨"day_2", "1970-01-02T00:00:00Z"⟩ ∧
    dget ("1")
      (schedule_next config_default 0
        ⟨[("1", ⟨"day_7a", "1970-01-01T00:00:00Z"⟩)],
         [("1", ⟨"1970-01-01T00:00:00+00:00", false, none⟩)]⟩ "1" "day_7a").queue_state
      = none := by
  constructor
  · have := (schedule_next_advances_or_finishes config_default 0
      ⟨[("1", ⟨"day_1", "1970-01-01T00:00:00Z"⟩)], []⟩ "1" "day_1" (by decide)).1
      (by decide)
    rw [this.1]
    decide
  · exact ((schedule_next_advances_or_finishes config_default 0
      ⟨[("1", ⟨"day_7a", "1970-01-01T00:00:00Z"⟩)],
       [("1", ⟨"1970-01-01T00:00:00+00:00", false, none⟩)]⟩ "1" "day_7a"
      (by decide)).2 (by decide)).1

/-- Claim C2 counterexample: a due day_1 entry whose single delivery block
fails with a non-permission (transient) error is advanced to day_2 by the
tick instead of staying at day_1 for retry: send_day swallows the exception,
so the scheduler still sees the user in the queue and calls schedule_next. -/
theorem transient_failure_retry_counterexample :
    dget ("1") (process_entry config_default ex_env_transient 0 ex_st_active "1"
        ⟨"day_1", "1970-01-01T00:00:00Z"⟩).1.queue_state =
      some ⟨"day_2", "1970-01-02T00:00:00Z"⟩ ∧
    ("day_2" : String) ≠ "day_1" := by
  decide

/-- Claim C2 (amended): a due entry whose delivery attempt fails with a
non-permission (transient) error is logged and not cancelled - the user
stays in the active queue - but the tick then advances the entry exactly as
on a successful delivery (schedule_next runs), so the failed step is skipped
rather than retried at the next tick. -/
theorem transient_failure_advances (cfg : Config) (env : Env) (now : Int)
    (st : BotState) (uid : String) (payload : QueueEntry) (roles : List Nat)
    (u : String) (embeds : List Unit)
    (hq : (dget uid st.queue_state).isSome = true)
    (hday : ¬payload.current_day = "")
    (hdue : is_due now payload.next_send = true)
    (hmem : env.member_roles uid = some roles)
    (hnc : has_cancel_role cfg ⟨uid, roles⟩ = false)
    (hmod : env.moduleExists payload.current_day = true)
    (hutm : env.utm payload.current_day = some u)
    (hu : ¬u = "")
    (hbuild : env.buildResult payload.current_day = some embeds)
    (htrans : (send_embeds_with_view (env.blockOutcome uid payload.current_day)
        embeds).2 = SendOutcome.other) :
    process_entry cfg env now st uid payload =
      (schedule_next cfg now st uid payload.current_day, true) := by
  have hsd : send_day cfg env now st ⟨uid, roles⟩ payload.current_day = st := by
    simp [send_day, hnc, hmod, hutm, hbuild, htrans, hu]
  simp [process_entry, hmem, hday, hdue, hnc, hsd, hq]

theorem transient_failure_advances_witness :
    process_entry config_default ex_env_transient 0 ex_st_active "1"
        ⟨"day_1", "1970-01-01T00:00:00Z"⟩ =
      (schedule_next config_default 0 ex_st_active "1" "day_1", true) :=
  transient_failure_advances config_default ex_env_transient 0 ex_st_active "1"
    ⟨"day_1", "1970-01-01T00:00:00Z"⟩ [] "https://example.com" [()]
    (by decide) (by decide) (by decide) (by decide) (by decide) (by decide)
    (by decide) (by decide) (by decide) (by decide)

/-- Claim C5: a due queue entry whose user currently holds one of the two
cancel roles is cancelled by the tick before any delivery: the queue entry
is popped, the registry record is marked completed with reason
cancel_role_present (the code spelling of cancel-role-present), and send_day
is never invoked for that user in that tick (the Bool component of
process_entry records a delivery attempt and is false here). -/
theorem cancel_role_cancels_before_send (cfg : Config) (env : Env) (now : Int)
    (st : BotState) (uid : String) (payload : QueueEntry) (roles : List Nat)
    (hday : ¬payload.current_day = "")
    (hdue : is_due now payload.next_send = true)
    (hmem : env.member_roles uid = some roles)
    (hcr : has_cancel_role cfg ⟨uid, roles⟩ = true) :
    process_entry cfg env now st uid payload =
      (mark_cancelled now st uid ("cancel_role_present"), false) ∧
    dget uid (process_entry cfg env now st uid payload).1.queue_state = none ∧
    (∃ r, dget uid (process_entry cfg env now st uid payload).1.registry = some r ∧
      r.completed = true ∧ r.cancel_reason = some ("cancel_role_present")) := by
  have h1 : process_entry cfg env now st uid payload =
      (mark_cancelled now st uid ("cancel_role_present"), false) := by
    simp [process_entry, hmem, hday, hdue, hcr]
  refine ⟨h1, ?_, ?_⟩
  · rw [h1]
    show dget uid (mark_cancelled now st uid ("cancel_role_present")).queue_state = none
    rw [mark_cancelled_queue]
    exact dget_dpop_self _ _
  · rw [h1]
    show ∃ r, dget uid (mark_cancelled now st uid ("cancel_role_present")).registry
      = some r ∧ r.completed = true ∧ r.cancel_reason = some ("cancel_role_present")
    obtain ⟨r0, hreg, hcomp, hrsn⟩ :=
      mark_cancelled_registry now st uid ("cancel_role_present")
    exact ⟨r0, by rw [hreg]; exact dget_dset_self _ _ _, hcomp, hrsn⟩

theorem cancel_role_cancels_before_send_witness :
    process_entry config_default ex_env_cancelrole 0 ex_st_active "1"
        ⟨"day_1", "1970-01-01T00:00:00Z"⟩ =
      (mark_cancelled 0 ex_st_active "1" ("cancel_role_present"), false) :=
  (cancel_role_cancels_before_send config_default ex_env_cancelrole 0 ex_st_active
    "1" ⟨"day_1", "1970-01-01T00:00:00Z"⟩ [876569612085518376]
    (by decide) (by decide) (by decide) (by decide)).1

/-- Claim C4: a user who already has a registry record (in particular one
with completed true) is never re-enrolled by the automatic paths: the
trigger-role-added branch of on_member_update skips the start, so the
handler never creates a queue entry for that user (the queue entry after
the handler is the pre-existing one or none), and the fallback enrollment
of check_and_assign_role likewise refuses and leaves the state unchanged. -/
theorem no_reenroll_after_record (cfg : Config) (now : Int) (st : BotState)
    (before_roles after_roles : List Nat) (uid : String)
    (hrec : (dget uid st.registry).isSome = true) :
    (dget uid (on_member_update cfg now st before_roles after_roles uid).queue_state
        = dget uid st.queue_state ∨
      dget uid (on_member_update cfg now st before_roles after_roles uid).queue_state
        = none) ∧
    check_and_assign_role_enroll now st uid = st := by
  have hsb : has_sequence_before st uid = true := hrec
  constructor
  · unfold on_member_update
    split
    · right
      rw [mark_cancelled_queue]
      exact dget_dpop_self _ _
    · split
      · simp [hsb]
      · left
        rfl
  · unfold check_and_assign_role_enroll
    rw [if_pos hsb]

theorem no_reenroll_after_record_witness :
    (dget ("1") (on_member_update config_default 0 ex_st_done
        [] [1222877651438407731] "1").queue_state
        = dget ("1") ex_st_done.queue_state ∨
      dget ("1") (on_member_update config_default 0 ex_st_done
        [] [1222877651438407731] "1").queue_state = none) ∧
    check_and_assign_role_enroll 0 ex_st_done "1" = ex_st_done :=
  no_reenroll_after_record config_default 0 ex_st_done [] [1222877651438407731] "1"
    (by decide)

/-- Claim C8: admin commands invoked in an invalid state or with an invalid
reference reply synchronously with a descriptive rejection and mutate neither
map: start when the target lacks the trigger role, start when the target
already has a registry record, cancel when the target has no active queue
entry, and relocate when the day reference does not resolve against the
sequence definition. -/
theorem admin_misuse_rejected (cfg : Config) (now : Int) (st : BotState)
    (m : Member) (uid day : String) :
    (has_trigger_role cfg m = false →
      start_sequence cfg now st m =
        (st, "User does not have the trigger role; sequence only starts after that role is added.")) ∧
    (has_trigger_role cfg m = true → has_sequence_before st m.id = true →
      start_sequence cfg now st m =
        (st, "User already had sequence before; not starting again.")) ∧
    (dget m.id st.queue_state = none →
      cancel_sequence now st m = (st, "User not in active queue.")) ∧
    (relocate_day_key day = none →
      relocate_sequence now st uid day =
        (st, "Invalid day. Use 1-7, 7a, 7b, 7, or day_1..day_7b.")) := by
  refine ⟨?_, ?_, ?_, ?_⟩
  · intro h
    simp [start_sequence, h]
  · intro h1 h2
    simp [start_sequence, h1, h2]
  · intro h
    simp [cancel_sequence, h]
  · intro h
    simp [relocate_sequence, h]

theorem admin_misuse_rejected_witness :
    start_sequence config_default 0 ex_st_done ex_member_plain =
      (ex_st_done, "User does not have the trigger role; sequence only starts after that role is added.") ∧
    start_sequence config_default 0 ex_st_done ex_member_trigger =
      (ex_st_done, "User already had sequence before; not starting again.") ∧
    cancel_sequence 0 ex_st_done ex_member_trigger =
      (ex_st_done, "User not in active queue.") ∧
    relocate_sequence 0 ex_st_done "1" "8" =
      (ex_st_done, "Invalid day. Use 1-7, 7a, 7b, 7, or day_1..day_7b.") := by
  refine ⟨?_, ?_, ?_, ?_⟩
  · exact (admin_misuse_rejected config_default 0 ex_st_done ex_member_plain "1"
      "8").1 (by decide)
  · exact (admin_misuse_rejected config_default 0 ex_st_done ex_member_trigger "1"
      "8").2.1 (by decide) (by decide)
  · exact (admin_misuse_rejected config_default 0 ex_st_done ex_member_trigger "1"
      "8").2.2.1 (by decide)
  · exact (admin_misuse_rejected config_default 0 ex_st_done ex_member_trigger "1"
      "8").2.2.2 (by decide)

/-- Claim C9: the due-ness check is total and fail-open: is_due is a Lean
function returning a Bool for every string (the try/except of the source is
the Option of the parser model), and on any input whose stored text does not
parse as a timestamp - the empty string included - it returns true, so the
entry is treated as immediately due instead of crashing the tick or being
skipped forever. -/
theorem is_due_unparseable_true (now : Int) (s : String)
    (hbad : fromisoformat (pyReplace s ("Z") ("+00:00")) = none) :
    is_due now s = true ∧ is_due now "" = true := by
  constructor
  · unfold is_due
    rw [hbad]
  · rfl

theorem is_due_unparseable_true_witness :
    is_due 12345 "not-a-date" = true ∧ is_due 12345 "" = true :=
  is_due_unparseable_true 12345 "not-a-date" (by decide)

/-- Claim C10: in send_embeds_with_view every exception raised while sending
a non-final block (a Forbidden included) is caught and logged and does not
propagate: the propagated result equals the final block's outcome and is
unchanged under any change of the non-final outcomes; consequently in
send_day only a Forbidden on the final block (the one carrying the view)
triggers the dm_forbidden cancellation, and any non-Forbidden final outcome
leaves the state untouched even when non-final blocks failed. -/
theorem only_final_block_failure_propagates (f g : Nat → SendOutcome)
    (e0 : Unit) (es : List Unit) (cfg : Config) (env : Env) (now : Int)
    (st : BotState) (m : Member) (day u : String)
    (hfg : f es.length = g es.length)
    (hnc : has_cancel_role cfg m = false)
    (hmod : env.moduleExists day = true)
    (hutm : env.utm day = some u) (hu : ¬u = "")
    (hbuild : env.buildResult day = some (e0 :: es)) :
    (send_embeds_with_view f (e0 :: es)).2 = f es.length ∧
    (send_embeds_with_view f (e0 :: es)).2 = (send_embeds_with_view g (e0 :: es)).2 ∧
    (env.blockOutcome m.id day es.length ≠ SendOutcome.forbidden →
      send_day cfg env now st m day = st) ∧
    (env.blockOutcome m.id day es.length = SendOutcome.forbidden →
      send_day cfg env now st m day = mark_cancelled now st m.id ("dm_forbidden")) := by
  refine ⟨rfl, ?_, ?_, ?_⟩
  · simp [send_embeds_with_view, hfg]
  · intro hnf
    cases hx : env.blockOutcome m.id day es.length with
    | ok => simp [send_day, hnc, hmod, hutm, hu, hbuild, send_embeds_with_view, hx]
    | forbidden => exact absurd hx hnf
    | other => simp [send_day, hnc, hmod, hutm, hu, hbuild, send_embeds_with_view, hx]
  · intro hf
    simp [send_day, hnc, hmod, hutm, hu, hbuild, send_embeds_with_view, hf]

theorem only_final_block_failure_propagates_witness :
    (send_embeds_with_view (fun i => if i = 0 then SendOutcome.other else SendOutcome.ok)
        [(), ()]).2 = (fun i => if i = 0 then SendOutcome.other else SendOutcome.ok) 1 ∧
    (send_embeds_with_view (fun i => if i = 0 then SendOutcome.other else SendOutcome.ok)
        [(), ()]).2 = (send_embeds_with_view (fun _ => SendOutcome.ok) [(), ()]).2 ∧
    (ex_env_two.blockOutcome "1" "day_1" 1 ≠ SendOutcome.forbidden →
      send_day config_default ex_env_two 0 ex_st_active ex_member_plain "day_1"
        = ex_st_active) ∧
    (ex_env_two.blockOutcome "1" "day_1" 1 = SendOutcome.forbidden →
      send_day config_default ex_env_two 0 ex_st_active ex_member_plain "day_1"
        = mark_cancelled 0 ex_st_active "1" ("dm_forbidden")) :=
  only_final_block_failure_propagates
    (fun i => if i = 0 then SendOutcome.other else SendOutcome.ok)
    (fun _ => SendOutcome.ok) () [()] config_default ex_env_two 0 ex_st_active
    ex_member_plain "day_1" "https://example.com"
    (by decide) (by decide) (by decide) (by decide) (by decide) (by decide)

theorem send_time_ge (spacing l now2 : ℚ) :
    l + spacing ≤ send_time spacing (some l) now2 := by
  simp only [send_time, send_sleep]
  split
  · linarith
  · linarith

theorem run_sends_lower (spacing : ℚ) (hsp : 0 ≤ spacing) (ds : List Delivery)
    (hfin : ∀ d ∈ ds, 0 ≤ d.finish) (l : ℚ) :
    ∀ x ∈ run_sends spacing (some l) ds, l + spacing ≤ x := by
  induction ds generalizing l with
  | nil =>
    intro x hx
    simp [run_sends] at hx
  | cons d rest ih =>
    intro x hx
    simp only [run_sends] at hx
    rcases List.mem_cons.mp hx with h1 | h1
    · rw [h1]
      exact send_time_ge spacing l d.arrive
    · have hd : 0 ≤ d.finish := hfin d (List.mem_cons_self _ _)
      have h2 := ih (fun d' hd' => hfin d' (List.mem_cons_of_mem _ hd'))
        (send_time spacing (some l) d.arrive + d.finish) x h1
      have h3 := send_time_ge spacing l d.arrive
      linarith

/-- Claim C7: deliveries are globally rate limited across all users: the
scheduler serializes every send_day through the single last_send_at, send_day
sleeps the remainder of the spacing interval since the previous recorded
delivery before sending, and therefore in any run the actual send instants
of every pair of deliveries are at least the configured spacing apart. -/
theorem deliveries_spaced (spacing : ℚ) (last0 : Option ℚ) (ds : List Delivery)
    (hsp : 0 ≤ spacing) (hfin : ∀ d ∈ ds, 0 ≤ d.finish) :
    (run_sends spacing last0 ds).Pairwise (fun a b => a + spacing ≤ b) := by
  induction ds generalizing last0 with
  | nil => simp [run_sends]
  | cons d rest ih =>
    simp only [run_sends]
    refine List.Pairwise.cons ?_
      (ih _ (fun d' hd' => hfin d' (List.mem_cons_of_mem _ hd')))
    intro b hb
    have hd : 0 ≤ d.finish := hfin d (List.mem_cons_self _ _)
    have h2 := run_sends_lower spacing hsp rest
      (fun d' hd' => hfin d' (List.mem_cons_of_mem _ hd'))
      (send_time spacing last0 d.arrive + d.finish) b hb
    linarith

theorem deliveries_spaced_witness :
    (run_sends 30 none [⟨0, 0⟩, ⟨1, 0⟩]).Pairwise (fun a b => a + 30 ≤ b) :=
  deliveries_spaced 30 none [⟨0, 0⟩, ⟨1, 0⟩] (by norm_num)
    (by decide)

theorem queue_entry_roundtrip (e : QueueEntry) :
    QueueEntry.fromJson e.toJson = some e := rfl

theorem reg_record_roundtrip (r : RegRecord) :
    RegRecord.fromJson r.toJson = some r := by
  cases hc : r.cancel_reason with
  | none =>
    simp only [RegRecord.toJson, hc, RegRecord.fromJson, dget]
    simp [← hc]
  | some rsn =>
    simp only [RegRecord.toJson, hc, RegRecord.fromJson, dget]
    simp [← hc]

theorem decode_queue_roundtrip (q : List (String × QueueEntry)) :
    decodeQueue (queueToJson q) = some q := by
  unfold decodeQueue queueToJson
  induction q with
  | nil => rfl
  | cons p rest ih =>
    simp only [List.map_cons, decodeQueueFields, queue_entry_roundtrip]
    simp only [queueToJson] at ih
    rw [ih]

theorem decode_registry_roundtrip (r : List (String × RegRecord)) :
    decodeRegistry (registryToJson r) = some r := by
  unfold decodeRegistry registryToJson
  induction r with
  | nil => rfl
  | cons p rest ih =>
    simp only [List.map_cons, decodeRegistryFields, reg_record_roundtrip]
    simp only [registryToJson] at ih
    rw [ih]

theorem path_ne_tmp (path : String) : path ≠ path ++ ".tmp" := by
  intro h
  have h2 := congrArg String.length h
  rw [String.length_append] at h2
  have h3 : String.length ".tmp" = 4 := rfl
  omega

theorem load_save_json (path : String) (fs : FS) (j : Json) :
    load_json path (save_json path j fs) = j := by
  unfold save_json os_replace write_tmp load_json
  simp only [dget_dset_self]

/-- Claim C6: persisting either map and loading it back yields the map that
was saved - the json.dump / json.loads text layer is modelled at the
JSON-value level, where string fields (the timestamps included) round trip
verbatim - and save_json writes through a temporary file that is then renamed
over the destination: while the temporary file is being written the
destination's content is exactly what it was before, and after the atomic
rename it is exactly the complete new document, so no reader ever observes a
partially-written file. -/
theorem save_load_roundtrip_atomic (path : String) (fs : FS)
    (q : List (String × QueueEntry)) (r : List (String × RegRecord)) :
    decodeQueue (load_json path (save_json path (queueToJson q) fs)) = some q ∧
    decodeRegistry (load_json path (save_json path (registryToJson r) fs)) = some r ∧
    dget path (write_tmp path (queueToJson q) fs) = dget path fs ∧
    dget path (write_tmp path (registryToJson r) fs) = dget path fs ∧
    load_json path (save_json path (queueToJson q) fs) = queueToJson q := by
  refine ⟨?_, ?_, ?_, ?_, ?_⟩
  · rw [load_save_json]
    exact decode_queue_roundtrip q
  · rw [load_save_json]
    exact decode_registry_roundtrip r
  · exact dget_dset_ne _ _ _ _ (path_ne_tmp path)
  · exact dget_dset_ne _ _ _ _ (path_ne_tmp path)
  · exact load_save_json path fs (queueToJson q)

theorem qre_check_enroll (now : Int) (st : BotState) (uid : String)
    (h : queue_registry_exclusive st = true) :
    queue_registry_exclusive (check_and_assign_role_enroll now st uid) = true := by
  unfold check_and_assign_role_enroll
  split
  · exact h
  · next hb => exact qre_enqueue_of_not_before _ _ _ h (Bool.not_eq_true _ ▸ hb)

/-- Claim C3 counterexample: from a state satisfying the queue/registry
exclusivity invariant (user 1 completed with reason finished, queue empty),
the admin relocate command - one of the mutating operations the claim ranges
over - re-enqueues user 1 without touching the registry, producing a state
where the user is in the active queue while its record shows completed true:
the invariant is not preserved by every mutating operation. -/
theorem exclusivity_relocate_counterexample :
    queue_registry_exclusive ex_st_done = true ∧
    queue_registry_exclusive (relocate_sequence 0 ex_st_done "1" "3").1 = false := by
  decide

/-- Claim C3 (amended): a user id present in the active queue has no registry
record with completed true, and this is preserved by every queue/registry
mutating operation of the automatic paths and by the admin start and cancel
commands; every operation that sets completed true (mark_cancelled and
mark_finished, hence all cancellation and completion paths) removes that
user's queue entry in the same operation.  The one exception is the admin
relocate command, which overwrites the queue entry without consulting the
registry, and therefore preserves the invariant only when the target's
record is absent or not completed. -/
theorem exclusivity_invariant_preserved (cfg : Config) (env : Env) (now : Int)
    (st : BotState) (h : queue_registry_exclusive st = true) :
    (∀ uid, queue_registry_exclusive (mark_started now st uid) = true) ∧
    (∀ uid reason, queue_registry_exclusive (mark_cancelled now st uid reason) = true ∧
      dget uid (mark_cancelled now st uid reason).queue_state = none) ∧
    (∀ uid, queue_registry_exclusive (mark_finished now st uid) = true ∧
      dget uid (mark_finished now st uid).queue_state = none) ∧
    (∀ uid day, (dget uid st.queue_state).isSome = true →
      queue_registry_exclusive (schedule_next cfg now st uid day) = true) ∧
    (∀ m day, queue_registry_exclusive (send_day cfg env now st m day) = true) ∧
    (∀ uid payload,
      queue_registry_exclusive (process_entry cfg env now st uid payload).1 = true) ∧
    (∀ before_roles after_roles uid, queue_registry_exclusive
      (on_member_update cfg now st before_roles after_roles uid) = true) ∧
    (∀ uid,
      queue_registry_exclusive (check_and_assign_role_enroll now st uid) = true) ∧
    (∀ m, queue_registry_exclusive (start_sequence cfg now st m).1 = true) ∧
    (∀ m, queue_registry_exclusive (cancel_sequence now st m).1 = true) ∧
    (∀ uid day, (∀ r, dget uid st.registry = some r → r.completed = false) →
      queue_registry_exclusive (relocate_sequence now st uid day).1 = true) := by
  refine ⟨?_, ?_, ?_, ?_, ?_, ?_, ?_, ?_, ?_, ?_, ?_⟩
  · exact fun uid => qre_mark_started now st uid h
  · exact fun uid reason => ⟨qre_mark_cancelled now st uid reason h,
      by rw [mark_cancelled_queue]; exact dget_dpop_self _ _⟩
  · exact fun uid => ⟨by rw [mark_finished_eq]; exact qre_mark_cancelled _ _ _ _ h,
      by rw [mark_finished_eq, mark_cancelled_queue]; exact dget_dpop_self _ _⟩
  · exact fun uid day hq => qre_schedule_next cfg now st uid day h hq
  · exact fun m day => qre_send_day cfg env now st m day h
  · exact fun uid payload => qre_process_entry cfg env now st uid payload h
  · exact fun b a uid => qre_on_member_update cfg now st b a uid h
  · exact fun uid => qre_check_enroll now st uid h
  · exact fun m => qre_start_sequence cfg now st m h
  · exact fun m => qre_cancel_sequence now st m h
  · exact fun uid day hrec => qre_relocate_of_record_clear now st uid day h hrec

theorem exclusivity_invariant_preserved_witness :
    (queue_registry_exclusive
      (mark_cancelled 0 ex_st_active "1" ("admin_cancel")) = true ∧
     dget ("1") (mark_cancelled 0 ex_st_active "1" ("admin_cancel")).queue_state
      = none) ∧
    queue_registry_exclusive
      (process_entry config_default ex_env_transient 0 ex_st_active "1"
        ⟨"day_1", "1970-01-01T00:00:00Z"⟩).1 = true :=
  ⟨(exclusivity_invariant_preserved config_default ex_env_transient 0 ex_st_active
      (by decide)).2.1 "1" "admin_cancel",
   (exclusivity_invariant_preserved config_default ex_env_transient 0 ex_st_active
      (by decide)).2.2.2.2.2.1 "1" ⟨"day_1", "1970-01-01T00:00:00Z"⟩⟩
